import Mathlib

/-
  Verification development for the redux-logic middleware core
  (createLogicMiddleware / logicWrapper / createLogicAction$ / createLogic).

  The JavaScript sources are shallowly embedded as executable Lean
  definitions.  Synchronous notification cascades of the RxJS graph are
  modelled as pure state-transition functions over an explicit per-instance
  state (`InstState`) together with an emitted event list (`Ev`): monitor
  events, store dispatches, downstream forwards and bottom-of-pipeline next
  calls.  JavaScript values that the core inspects (truthiness, the `type`
  field, `instanceof Error`, `typeof`) are embedded as the inductive
  `Value`; action-type patterns as the inductive `JPat`, where a JS array
  pattern `[p1, ..., pn]` is encoded as the cons chain
  `arrCons p1 (... (arrCons pn arrNil))` so that all functions stay
  structurally recursive and kernel-computable.
-/

namespace ReduxLogic

/-! ## Matcher (logicWrapper.js, matchesType) -/

/-- A JS pattern value accepted by `matchesType`: `null`/`undefined`,
a string, a regular-expression-like object (carrying a `test` predicate),
or an array of patterns (encoded as a cons chain). -/
inductive JPat where
  | jnull
  | str (s : String)
  | regex (test : String → Bool)
  | arrNil
  | arrCons (head : JPat) (tail : JPat)

/-- Direct transcription of `matchesType(tStrArrRe, type)`:
falsy pattern (null/undefined/empty string) never matches; a string matches
on identity or when it is the literal wildcard; an array matches if some
member matches (short-circuit or); otherwise the pattern is used via its
`test` method. -/
def matchesType : JPat → String → Bool
  | .jnull, _ => false
  | .str s, ty => if s = "" then false else (s == ty || s == "*")
  | .regex f, ty => f ty
  | .arrNil, _ => false
  | .arrCons p ps, ty => matchesType p ty || matchesType ps ty

/-- JS truthiness of a pattern value (`null`, `undefined` and the empty
string are falsy; regexes and arrays, including empty arrays, are truthy). -/
def truthyPat : JPat → Bool
  | .jnull => false
  | .str s => !(s == "")
  | _ => true

/-- Append of two member chains (the second argument is reached after the
members of the first). -/
def arrAppend : JPat → JPat → JPat
  | .arrNil, q => q
  | .arrCons h t, q => .arrCons h (arrAppend t q)
  | p, q => .arrCons p q

/-- JS `acc.concat(x)` for an array `acc`: if `x` is an array its members
are appended, otherwise `x` itself is appended as a single member. -/
def jsConcat (acc : JPat) (x : JPat) : JPat :=
  match x with
  | .arrNil => acc
  | .arrCons h t => arrAppend acc (.arrCons h t)
  | p => arrAppend acc (.arrCons p .arrNil)

/-- Transcription of logicWrapper.js line 31:
`[].concat((type && latest) ? type : []).concat(cancelType || [])`. -/
def mkCancelTypes (type : JPat) (latest : Bool) (cancelType : JPat) : JPat :=
  jsConcat (jsConcat .arrNil (if truthyPat type && latest then type else .arrNil))
    (if truthyPat cancelType then cancelType else .arrNil)

/-! ## Monitor events and the pending counter (createLogicMiddleware) -/

/-- Monitor operation tags, as used in `monitor$` events. -/
inductive Op where
  | init
  | top
  | begin
  | next
  | nextDisp
  | dispatch
  | nextError
  | opEnd
  | bottom
  | filtered
  | cancelled
  | dispCancelled
  | dispatchError
deriving DecidableEq

/-- The per-event increment of the `monitor$.scan` pending counter:
`top` and `begin` add one; `end`, `bottom`, `nextDisp`, `filtered`,
`dispatchError` and `cancelled` subtract one; every other op leaves the
counter unchanged. -/
def pendingDelta : Op → Int
  | .top => 1
  | .begin => 1
  | .opEnd => -1
  | .bottom => -1
  | .nextDisp => -1
  | .filtered => -1
  | .dispatchError => -1
  | .cancelled => -1
  | _ => 0

/-- The pending count after folding a finite monitor-op trace, seeded at 0
exactly as the `scan` accumulator is. -/
def pendingAfter (ops : List Op) : Int :=
  ops.foldl (fun acc op => acc + pendingDelta op) 0

/-! ## JS values inspected by the lifecycle engine -/

/-- The JS values the core inspects: `undefined`, primitives (with their
truthiness), `Error` instances with an optional `type` field, plain objects
with an optional `type` field, functions, actions built by `mapToAction`
or the generic error wrapper (`{type, payload, error}`), and the
`{__interceptAction: act}` wrapper produced by `wrapActionForIntercept`.
The `id` fields distinguish otherwise indistinguishable JS objects. -/
inductive Value where
  | undef
  | prim (tv : Bool) (id : Nat)
  | errObj (ty : Option String) (id : Nat)
  | obj (ty : Option String) (id : Nat)
  | fnVal (id : Nat)
  | made (ty : String) (payload : Value) (error : Bool)
  | interceptWrap (inner : Value)
deriving DecidableEq

/-- JS truthiness of a value; only `undefined` and falsy primitives are
falsy here (objects, errors, functions and wrappers are all truthy). -/
def truthy : Value → Bool
  | .undef => false
  | .prim tv _ => tv
  | _ => true

/-- Reading the `.type` field of a value (`none` models `undefined`). -/
def vtype : Value → Option String
  | .errObj ty _ => ty
  | .obj ty _ => ty
  | .made ty _ _ => some ty
  | _ => none

/-- Whether `.type` is present and truthy (the empty string is falsy). -/
def hasTruthyType (v : Value) : Bool :=
  match vtype v with
  | some t => !(t == "")
  | none => false

/-- JS `v instanceof Error`. -/
def isError : Value → Bool
  | .errObj _ _ => true
  | _ => false

/-- JS `typeof v === 'object' || typeof v === 'function'` (for the values
of this embedding; `Error` instances are objects too but are tested for
`instanceof Error` first by the code that uses this). -/
def isObjectOrFunction : Value → Bool
  | .obj _ _ => true
  | .made _ _ _ => true
  | .fnVal _ => true
  | .errObj _ _ => true
  | .interceptWrap _ => true
  | _ => false

/-! ## createLogicAction$: action mapping helpers -/

/-- A `successType`/`failType` configuration value: an action type string
or an action-creator function. -/
inductive TypeMap where
  | str (s : String)
  | creator (f : Value → Value)

/-- Transcription of `mapToAction(type, payload, err)`: an action-creator
function is applied to the payload, a string becomes
`{type, payload}` with an `error: true` flag when `err` is set. -/
def mapToAction (t : TypeMap) (payload : Value) (err : Bool) : Value :=
  match t with
  | .creator f => f payload
  | .str s => .made s payload err

/-- The generic error action type. -/
def UNHANDLED : String := "UNHANDLED_LOGIC_ERROR"

/-- The `{type: UNHANDLED_LOGIC_ERROR, payload: v, error: true}` wrapper. -/
def unhandledWrap (v : Value) : Value := .made UNHANDLED v true

/-- Transcription of `wrapActionForIntercept(act)`: falsy values are
returned unchanged, truthy ones wrapped as `{__interceptAction: act}`. -/
def wrapActionForIntercept (v : Value) : Value :=
  if truthy v then .interceptWrap v else v

/-- Transcription of `isInterceptAction(act)`:
`act && act.__interceptAction`. -/
def isInterceptAction : Value → Bool
  | .interceptWrap inner => truthy inner
  | _ => false

/-- Transcription of `unwrapInterceptAction(act)`. -/
def unwrapInterceptAction : Value → Value
  | .interceptWrap inner => inner
  | v => v

/-- Transcription of `mapToActionAndDispatch(actionOrValue)` up to the
`storeDispatch` call: the result is the action handed to `storeDispatch`,
or `none` when the computed action is falsy and nothing is dispatched. -/
def mapToActionStep (successType : Option TypeMap) (v : Value) : Option Value :=
  let act :=
    if isInterceptAction v then unwrapInterceptAction v
    else match successType with
      | some t => mapToAction t v false
      | none => v
  if truthy act then some act else none

/-- Transcription of `mapErrorToActionAndDispatch(actionOrValue)` up to the
`storeDispatch` call: intercept actions are unwrapped and dispatched;
with a `failType` the value maps through `mapToAction` (dispatched only if
truthy); otherwise an `Error` is dispatched as-is when its `type` field is
truthy and wrapped otherwise, any other truthy object or function value is
dispatched as-is, and everything else is wrapped into the generic
`UNHANDLED_LOGIC_ERROR` action. -/
def mapErrorStep (failType : Option TypeMap) (v : Value) : Option Value :=
  if isInterceptAction v then some (unwrapInterceptAction v)
  else match failType with
  | some t =>
      let act := mapToAction t v true
      if truthy act then some act else none
  | none =>
      if isError v then
        some (if hasTruthyType v then v else unhandledWrap v)
      else if truthy v && isObjectOrFunction v then some v
      else some (unhandledWrap v)

/-! ## Events emitted during a synchronous cascade -/

/-- Observable events of a run: a `monitor$` event (by its op), a
`store.dispatch(a)` call issued by `storeDispatch`, a downstream forward
`logicActionObs.next(a)`, or the bottom-of-pipeline `next(a)` call made by
the applyLogic subscriber. -/
inductive Ev where
  | monitor (op : Op)
  | storeDisp (a : Value)
  | nextOut (a : Value)
  | bottomNext (a : Value)
deriving DecidableEq

/-- Extract the monitor-op subsequence of an event trace (the events the
`monitor$.scan` pending counter folds over). -/
def monitorOps : List Ev → List Op
  | [] => []
  | .monitor op :: rest => op :: monitorOps rest
  | _ :: rest => monitorOps rest

/-- Whether an event is a downstream forward from the instance. -/
def isNextOut : Ev → Bool
  | .nextOut _ => true
  | _ => false

/-- Whether an event is a `store.dispatch` call. -/
def isStoreDisp : Ev → Bool
  | .storeDisp _ => true
  | _ => false

/-! ## Per-instance lifecycle state (createLogicAction$) -/

/-- The `processOptions` relevant to the lifecycle engine. -/
structure PCfg where
  dispatchReturn : Bool
  dispatchMultiple : Bool
  successType : Option TypeMap
  failType : Option TypeMap

/-- Mutable state of one lifecycle instance:
`interceptComplete` is the flag of the same name; `dqStopped` holds once
the `dispatch$` chain can no longer emit (completed, errored, or stopped
by `takeUntil(cancel$)`); `obsStopped` holds once `logicAction$` is
complete (after `take(1)`/`takeUntil` or an explicit complete);
`cancelActive` holds while the one-shot `cancelled$` relay can still fire. -/
structure InstState where
  interceptComplete : Bool
  dqStopped : Bool
  obsStopped : Bool
  cancelActive : Bool
deriving DecidableEq

/-- State of a freshly created instance. -/
def initInst : InstState := ⟨false, false, false, true⟩

/-- Terminating the dispatch$ chain also completes and unsubscribes the
`cancelled$` relay (both subscription handlers do this). -/
def dqStop (s : InstState) : InstState :=
  { s with dqStopped := true, cancelActive := false }

/-- A value travelling in the `dispatch$` queue: a next notification or an
error notification (from `Observable.throw` or a thrown `Error`). -/
inductive StreamVal where
  | nextV (v : Value)
  | errV (v : Value)
deriving DecidableEq

/-- Events emitted when an error notification reaches the `do` error
callback and then the subscribe error handler: the error-mapped action is
dispatched (monitor `dispatch` plus the store call) when the mapping
produces one, and the instance ends (monitor `end`). -/
def errorDrainEvents (failType : Option TypeMap) (v : Value) : List Ev :=
  (match mapErrorStep failType v with
   | none => []
   | some a => [Ev.monitor Op.dispatch, Ev.storeDisp a]) ++ [Ev.monitor Op.opEnd]

/-- Drain one next notification: `mapToActionAndDispatch` runs in the `do`
next callback; if `store.dispatch` throws (`consumerThrows`), the `do`
operator converts the exception into an error notification, so the
subscribe error handler ends the instance. -/
def drainNext (cfg : PCfg) (consumerThrows : Value → Bool) (s : InstState)
    (v : Value) : InstState × List Ev :=
  match mapToActionStep cfg.successType v with
  | none => (s, [])
  | some a =>
      if consumerThrows a then
        (dqStop s, [Ev.monitor Op.dispatch, Ev.storeDisp a, Ev.monitor Op.opEnd])
      else
        (s, [Ev.monitor Op.dispatch, Ev.storeDisp a])

/-- A notification reaching the `dispatch$` chain; a stopped chain drops it. -/
def dqEmit (cfg : PCfg) (consumerThrows : Value → Bool) (s : InstState) :
    StreamVal → InstState × List Ev
  | .nextV v => if s.dqStopped then (s, []) else drainNext cfg consumerThrows s v
  | .errV v =>
      if s.dqStopped then (s, [])
      else (dqStop s, errorDrainEvents cfg.failType v)

/-- Transcription of `dispatch$.complete()`: on a live chain the subscribe
complete handler emits monitor `end` and completes/unsubscribes
`cancelled$`; on a stopped chain it is a no-op. -/
def dqComplete (s : InstState) : InstState × List Ev :=
  if s.dqStopped then (s, []) else (dqStop s, [Ev.monitor Op.opEnd])

/-- An argument to the `dispatch` function: a plain value (an `Error`
instance becomes `Observable.throw`, everything else `Observable.of`), or
an explicit `Observable.throw` as built in the process catch block. -/
inductive DispatchArg where
  | value (v : Value)
  | obsThrow (v : Value)
deriving DecidableEq

/-- The enqueue part of `dispatch(act, options)`: `undefined` is skipped
(`typeof act !== 'undefined'`), an `Error` instance is wrapped as a throw
observable, anything else as a single-value observable; the notification
is then processed synchronously by the subscribed `dispatch$` chain. -/
def enqueueArg (cfg : PCfg) (consumerThrows : Value → Bool) (s : InstState) :
    DispatchArg → InstState × List Ev
  | .value .undef => (s, [])
  | .value v => dqEmit cfg consumerThrows s (if isError v then .errV v else .nextV v)
  | .obsThrow v => dqEmit cfg consumerThrows s (.errV v)

/-- Transcription of `dispatch(act, options)`: enqueue the argument, then
`if (!(dispatchMultiple || allowMore)) dispatch$.complete()`. -/
def dispatchFn (cfg : PCfg) (consumerThrows : Value → Bool) (s : InstState)
    (arg : DispatchArg) (allowMore : Bool) : InstState × List Ev :=
  let r1 := enqueueArg cfg consumerThrows s arg
  if cfg.dispatchMultiple || allowMore then r1
  else
    let r2 := dqComplete r1.1
    (r2.1, r1.2 ++ r2.2)

/-- A sequence of `dispatch` calls with default options (as an async
process hook would issue them after its instance was possibly cancelled). -/
def dispatchSeq (cfg : PCfg) (consumerThrows : Value → Bool) :
    InstState → List DispatchArg → InstState × List Ev
  | s, [] => (s, [])
  | s, a :: rest =>
      let r1 := dispatchFn cfg consumerThrows s a false
      let r2 := dispatchSeq cfg consumerThrows r1.1 rest
      (r2.1, r1.2 ++ r2.2)

/-! ## Intercept handling (allow / reject / handleNextOrDispatch) -/

/-- The `useDispatch` option: the default `'auto'`, or an explicit
truthiness. -/
inductive UseDispatch where
  | auto
  | flag (b : Bool)
deriving DecidableEq

/-- Transcription of `shouldDispatch(act, useDispatch)`: falsy actions are
never re-dispatched; `'auto'` re-dispatches exactly when the new action
type differs from the original action type; otherwise the explicit flag
decides. -/
def shouldDispatch (origAction : Value) (act : Value) (ud : UseDispatch) : Bool :=
  if !truthy act then false
  else match ud with
    | .auto => !(vtype act == vtype origAction)
    | .flag b => b

/-- Transcription of `postIfDefinedOrComplete(act, act$)`: forward a
truthy act downstream (dropped when the instance observable is already
stopped), set `interceptComplete`, complete the observable. -/
def postIfDefinedOrComplete (s : InstState) (act : Value) : InstState × List Ev :=
  (({ s with interceptComplete := true, obsStopped := true }),
   if truthy act && !s.obsStopped then [Ev.nextOut act] else [])

/-- One step performed by a process hook body: a `dispatch(act)` call
(default options) or a `done()` call. -/
inductive PStep where
  | sdispatch (arg : DispatchArg)
  | sdone
deriving DecidableEq

/-- How the synchronous part of a process hook finishes: it returns a
value (`.value .undef` models returning `undefined`) or throws. -/
inductive PResult where
  | ret (arg : DispatchArg)
  | throwsE (v : Value)
deriving DecidableEq

/-- The synchronous behaviour of a process hook: the dispatch/done calls
it makes, then its return or throw. -/
structure ProcScript where
  steps : List PStep
  result : PResult
deriving DecidableEq

/-- Run the dispatch/done calls a process hook makes. -/
def runSteps (cfg : PCfg) (consumerThrows : Value → Bool) :
    InstState → List PStep → InstState × List Ev
  | s, [] => (s, [])
  | s, .sdispatch a :: rest =>
      let r1 := dispatchFn cfg consumerThrows s a false
      let r2 := runSteps cfg consumerThrows r1.1 rest
      (r2.1, r1.2 ++ r2.2)
  | s, .sdone :: rest =>
      let r1 := dqComplete s
      let r2 := runSteps cfg consumerThrows r1.1 rest
      (r2.1, r1.2 ++ r2.2)

/-- Transcription of the `try { const retValue = processFn(...) ... }
catch (err) { dispatch(Observable.throw(err)) }` block: the hook body
runs, then under `dispatchReturn` an `undefined` return completes the
queue while any other return value is dispatched; a synchronous throw is
caught and converted into an error dispatch. -/
def runProcess (cfg : PCfg) (consumerThrows : Value → Bool) (s : InstState)
    (p : ProcScript) : InstState × List Ev :=
  let r1 := runSteps cfg consumerThrows s p.steps
  match p.result with
  | .ret arg =>
      if cfg.dispatchReturn then
        match arg with
        | .value .undef =>
            let r2 := dqComplete r1.1
            (r2.1, r1.2 ++ r2.2)
        | a =>
            let r2 := dispatchFn cfg consumerThrows r1.1 a false
            (r2.1, r1.2 ++ r2.2)
      else r1
  | .throwsE v =>
      let r2 := dispatchFn cfg consumerThrows r1.1 (.obsThrow v) false
      (r2.1, r1.2 ++ r2.2)

/-- Transcription of `handleNextOrDispatch(shouldProcess, act, options)`:
either re-dispatch a transformed action (`nextDisp`, wrapped for
intercept, queue kept open, observable completed without a next), or
forward/filter it (`next`/`filtered` plus `postIfDefinedOrComplete`);
afterwards run the process hook when `shouldProcess` holds, else complete
the dispatch queue. -/
def handleNextOrDispatch (cfg : PCfg) (consumerThrows : Value → Bool)
    (origAction : Value) (p : ProcScript) (s : InstState)
    (shouldProcess : Bool) (act : Value) (ud : UseDispatch) :
    InstState × List Ev :=
  let r1 :=
    if shouldDispatch origAction act ud then
      let rd := dispatchFn cfg consumerThrows { s with interceptComplete := true }
        (.value (wrapActionForIntercept act)) true
      ({ rd.1 with obsStopped := true }, Ev.monitor Op.nextDisp :: rd.2)
    else if truthy act then
      let rp := postIfDefinedOrComplete s act
      (rp.1, Ev.monitor Op.next :: rp.2)
    else
      let rp := postIfDefinedOrComplete { s with interceptComplete := true } act
      (rp.1, Ev.monitor Op.filtered :: rp.2)
  if shouldProcess then
    let r2 := runProcess cfg consumerThrows r1.1 p
    (r2.1, r1.2 ++ r2.2)
  else
    let r2 := dqComplete r1.1
    (r2.1, r1.2 ++ r2.2)

/-- A call the intercept hook makes: `allow(act, options)` authorizes
processing, `reject(act, options)` forbids it. -/
inductive InterceptCall where
  | allowC (act : Value) (ud : UseDispatch)
  | rejectC (act : Value) (ud : UseDispatch)
deriving DecidableEq

/-- Run one intercept-hook callback on the current instance state. -/
def runInterceptCall (cfg : PCfg) (consumerThrows : Value → Bool)
    (origAction : Value) (p : ProcScript) (s : InstState) :
    InterceptCall → InstState × List Ev
  | .allowC act ud => handleNextOrDispatch cfg consumerThrows origAction p s true act ud
  | .rejectC act ud => handleNextOrDispatch cfg consumerThrows origAction p s false act ud

/-- Whether the intercept hook completes synchronously inside `start()`,
or asynchronously at some later scheduler point. -/
inductive InterceptScript where
  | sync (c : InterceptCall)
  | async
deriving Inhabited

/-- Transcription of `createLogicAction$` up to the end of its synchronous
part: emit monitor `begin`, build the fresh instance state, run the
intercept hook when it is synchronous. -/
def beginInstance (cfg : PCfg) (consumerThrows : Value → Bool)
    (origAction : Value) (i : InterceptScript) (p : ProcScript) :
    InstState × List Ev :=
  match i with
  | .sync c =>
      let r := runInterceptCall cfg consumerThrows origAction p initInst c
      (r.1, Ev.monitor Op.begin :: r.2)
  | .async => (initInst, [Ev.monitor Op.begin])

/-- A `cancel$` emission reaching this instance, in subscription order:
the outer `takeUntil` stops `logicAction$`; the one-shot `cancelled$`
relay emits `cancelled` (intercept not yet complete) or `dispCancelled`;
the `dispatch$` `takeUntil` completes a still-live queue, whose subscribe
complete handler emits monitor `end`. -/
def onCancel (s : InstState) : InstState × List Ev :=
  let cEv : List Ev :=
    if s.cancelActive then
      [Ev.monitor (if s.interceptComplete then Op.dispCancelled else Op.cancelled)]
    else []
  if s.dqStopped then
    ({ s with obsStopped := true, cancelActive := false }, cEv)
  else
    ({ s with obsStopped := true, cancelActive := false, dqStopped := true },
     cEv ++ [Ev.monitor Op.opEnd])

/-! ## Pipeline bottom and middleware attachment (createLogicMiddleware) -/

/-- Transcription of the applyLogic bottom subscriber: `next(action)` is
called inside a try/catch; a thrown exception is logged and reported as a
monitor `nextError` event; monitor `bottom` is emitted afterwards in
either case. -/
def bottomStep (nextThrows : Value → Bool) (a : Value) : List Ev :=
  Ev.bottomNext a ::
    ((if nextThrows a then [Ev.monitor Op.nextError] else []) ++ [Ev.monitor Op.bottom])

/-- The exact message thrown by `mw` on a second store. -/
def multiStoreMsg : String :=
  "cannot assign logicMiddleware instance to multiple stores, create separate instance for each"

/-- Transcription of the `mw(store)` guard: with a saved store differing
from the argument it throws, otherwise it saves the argument. Stores are
identified by reference, embedded as natural numbers. -/
def mwApplyStore (savedStore : Option Nat) (store : Nat) :
    Except String (Option Nat) :=
  match savedStore with
  | some s => if s ≠ store then .error multiStoreMsg else .ok (some store)
  | none => .ok (some store)

/-! ## The error mapping as the claim states it (for C4) -/

/-- Modelled from the claim wording of C4: with `failType` configured the
value maps through it; otherwise a value carrying a `type` field is
dispatched as-is and any other value is wrapped into the generic
`UNHANDLED_LOGIC_ERROR` action. -/
def claimErrorMap (failType : Option TypeMap) (v : Value) : Option Value :=
  match failType with
  | some t =>
      let act := mapToAction t v true
      if truthy act then some act else none
  | none =>
      if (vtype v).isSome then some v else some (unhandledWrap v)

/-- The amended error mapping (for C4), stated by value category: intercept
actions are unwrapped; with `failType` the value maps through it when the
result is truthy; otherwise an `Error` instance with a truthy `type` field
passes as-is and one without is wrapped; any truthy object or function
value passes as-is; everything else is wrapped into the generic
`UNHANDLED_LOGIC_ERROR` action. -/
def amendedErrorMap (failType : Option TypeMap) (v : Value) : Option Value :=
  if isInterceptAction v then some (unwrapInterceptAction v)
  else match failType with
  | some t =>
      let act := mapToAction t v true
      if truthy act then some act else none
  | none =>
      match v with
      | .errObj (some t) i =>
          if t = "" then some (unhandledWrap (.errObj (some t) i))
          else some (.errObj (some t) i)
      | .errObj none i => some (unhandledWrap (.errObj none i))
      | .obj ty i => some (.obj ty i)
      | .made t pl e => some (.made t pl e)
      | .fnVal i => some (.fnVal i)
      | .interceptWrap inner => some (.interceptWrap inner)
      | w => some (unhandledWrap w)

/-! ## Concrete scenario for the pending counter (C1) -/

/-- The incoming action `{type: 'X'}`. -/
def aX : Value := .obj (some "X") 0

/-- The incoming action `{type: 'CANCEL'}`. -/
def aCancel : Value := .obj (some "CANCEL") 1

/-- The type pattern of the single registered logic. -/
def c1Pattern : JPat := .str "X"

/-- Its cancel set: latest is false and cancelType is `'CANCEL'`. -/
def c1CancelTypes : JPat := mkCancelTypes c1Pattern false (.str "CANCEL")

/-- Its process options (no dispatchReturn, no multiple dispatch, no
success or fail type); the process hook is never reached in the run. -/
def c1Cfg : PCfg := ⟨false, false, none, none⟩

/-- The downstream consumer of the run never throws. -/
def c1NoThrow : Value → Bool := fun _ => false

/-- The (never invoked) process hook of the logic. -/
def c1Proc : ProcScript := ⟨[], .ret (.value .undef)⟩

/-- Instance state after `{type:'X'}` matched and began: its validate hook
is asynchronous and has not called allow/reject yet. -/
def c1InstAfterBegin : InstState :=
  (beginInstance c1Cfg c1NoThrow aX .async c1Proc).1

/-- Instance state after `{type:'CANCEL'}` fired the cancel set. -/
def c1InstAfterCancel : InstState := (onCancel c1InstAfterBegin).1

/-- The deferred validate hook now calls `reject(undefined)`: exactly one
allow/reject call, merely later than the cancellation. -/
def c1LateReject : InstState × List Ev :=
  runInterceptCall c1Cfg c1NoThrow aX c1Proc c1InstAfterCancel
    (.rejectC .undef .auto)

/-- The complete event trace of the run: each incoming action emits
monitor `top` at the middleware entry, then notifies the shared action
stream in subscription order (the merged non-matching/matching chain with
the bottom subscriber first, then the live instance cancel subscriptions),
and finally the deferred reject fires. -/
def c1Trace : List Ev :=
  (Ev.monitor Op.top ::
    (if matchesType c1Pattern "X" then
       (beginInstance c1Cfg c1NoThrow aX .async c1Proc).2
     else bottomStep c1NoThrow aX)) ++
  (Ev.monitor Op.top ::
    ((if matchesType c1Pattern "CANCEL" then []
      else bottomStep c1NoThrow aCancel) ++
     (if matchesType c1CancelTypes "CANCEL" then (onCancel c1InstAfterBegin).2
      else []))) ++
  c1LateReject.2

/-! ## Concrete scenario for allow(undefined) (C5) -/

/-- Process options with dispatchReturn set (hook of arity 0/1). -/
def c5Cfg : PCfg := ⟨true, false, none, none⟩

/-- The original action of the C5 run. -/
def c5Action : Value := .obj (some "A") 0

/-- The value returned by the process hook of the C5 run. -/
def c5Dispatched : Value := .obj (some "V") 7

/-- Trace of an instance whose validate hook calls `allow(undefined)` with
default options and whose process hook returns an action value. -/
def c5Run : List Ev :=
  (beginInstance c5Cfg (fun _ => false) c5Action (.sync (.allowC .undef .auto))
    ⟨[], .ret (.value c5Dispatched)⟩).2

/-! ## Concrete scenario for a throwing consumer (C7) -/

/-- The original action of the C7 run. -/
def c7Action : Value := .obj (some "A") 0

/-- The action drained from the dispatch queue in the C7 run. -/
def c7Dispatched : Value := .obj (some "B") 1

/-- A downstream consumer whose dispatch throws on every action. -/
def c7Throwing : Value → Bool := fun _ => true

/-- Trace of an instance forwarding one queue value to that consumer. -/
def c7Run : List Ev :=
  (beginInstance ⟨true, false, none, none⟩ c7Throwing c7Action
    (.sync (.allowC c7Action .auto)) ⟨[], .ret (.value c7Dispatched)⟩).2

/-! ## Helper lemmas -/

theorem matchesType_arrAppend (p q : JPat) (ty : String) :
    matchesType (arrAppend p q) ty = (matchesType p ty || matchesType q ty) := by
  induction p with
  | jnull => simp [arrAppend, matchesType]
  | str s => simp [arrAppend, matchesType]
  | regex f => simp [arrAppend, matchesType]
  | arrNil => simp [arrAppend, matchesType]
  | arrCons h t ihh iht => simp [arrAppend, matchesType, iht, Bool.or_assoc]

theorem matchesType_jsConcat (acc x : JPat) (ty : String) :
    matchesType (jsConcat acc x) ty = (matchesType acc ty || matchesType x ty) := by
  cases x <;> simp [jsConcat, matchesType_arrAppend, matchesType]

theorem truthyPat_of_matchesType (p : JPat) (ty : String)
    (hm : matchesType p ty = true) : truthyPat p = true := by
  cases p with
  | jnull => simp [matchesType] at hm
  | str s =>
      by_cases hs : s = ""
      · rw [hs] at hm; simp [matchesType] at hm
      · simp [truthyPat, hs]
  | regex f => rfl
  | arrNil => rfl
  | arrCons h t => rfl

theorem onCancel_dqStopped (s : InstState) : ((onCancel s).1).dqStopped = true := by
  by_cases h : s.dqStopped <;> simp [onCancel, h]

theorem dqEmit_stopped (cfg : PCfg) (ct : Value → Bool) (s : InstState)
    (sv : StreamVal) (h : s.dqStopped = true) : dqEmit cfg ct s sv = (s, []) := by
  cases sv <;> simp [dqEmit, h]

theorem enqueueArg_stopped (cfg : PCfg) (ct : Value → Bool) (s : InstState)
    (arg : DispatchArg) (h : s.dqStopped = true) :
    enqueueArg cfg ct s arg = (s, []) := by
  cases arg with
  | value v => cases v <;> simp [enqueueArg, dqEmit, h, isError]
  | obsThrow v => simp [enqueueArg, dqEmit, h]

theorem dispatchFn_stopped (cfg : PCfg) (ct : Value → Bool) (s : InstState)
    (arg : DispatchArg) (am : Bool) (h : s.dqStopped = true) :
    dispatchFn cfg ct s arg am = (s, []) := by
  by_cases hb : cfg.dispatchMultiple || am <;>
    simp [dispatchFn, hb, enqueueArg_stopped cfg ct s arg h, dqComplete, h]

theorem dispatchSeq_stopped (cfg : PCfg) (ct : Value → Bool)
    (l : List DispatchArg) :
    ∀ s : InstState, s.dqStopped = true → dispatchSeq cfg ct s l = (s, []) := by
  induction l with
  | nil => intro s _; rfl
  | cons a rest ih =>
      intro s h
      simp [dispatchSeq, dispatchFn_stopped cfg ct s a false h, ih s h]

theorem errorDrainEvents_noOut (failType : Option TypeMap) (v : Value) :
    ((errorDrainEvents failType v).any isNextOut) = false := by
  rcases h : mapErrorStep failType v with _ | a <;>
    simp [errorDrainEvents, h, isNextOut]

theorem drainNext_noOut (cfg : PCfg) (ct : Value → Bool) (s : InstState)
    (v : Value) : (((drainNext cfg ct s v).2).any isNextOut) = false := by
  rcases h : mapToActionStep cfg.successType v with _ | a
  · simp [drainNext, h]
  · by_cases hc : ct a <;> simp [drainNext, h, hc, isNextOut]

theorem dqEmit_noOut (cfg : PCfg) (ct : Value → Bool) (s : InstState)
    (sv : StreamVal) : (((dqEmit cfg ct s sv).2).any isNextOut) = false := by
  cases sv <;> by_cases h : s.dqStopped <;>
    simp [dqEmit, h, drainNext_noOut, errorDrainEvents_noOut]

theorem dqComplete_noOut (s : InstState) :
    (((dqComplete s).2).any isNextOut) = false := by
  by_cases h : s.dqStopped <;> simp [dqComplete, h, isNextOut]

theorem enqueueArg_noOut (cfg : PCfg) (ct : Value → Bool) (s : InstState)
    (arg : DispatchArg) : (((enqueueArg cfg ct s arg).2).any isNextOut) = false := by
  cases arg with
  | value v => cases v <;> simp [enqueueArg, dqEmit_noOut]
  | obsThrow v => simp [enqueueArg, dqEmit_noOut]

theorem dispatchFn_noOut (cfg : PCfg) (ct : Value → Bool) (s : InstState)
    (arg : DispatchArg) (am : Bool) :
    (((dispatchFn cfg ct s arg am).2).any isNextOut) = false := by
  by_cases hb : cfg.dispatchMultiple || am <;>
    simp [dispatchFn, hb, List.any_append, enqueueArg_noOut, dqComplete_noOut]

theorem runSteps_noOut (cfg : PCfg) (ct : Value → Bool) (l : List PStep) :
    ∀ s : InstState, (((runSteps cfg ct s l).2).any isNextOut) = false := by
  induction l with
  | nil => intro s; rfl
  | cons st rest ih =>
      intro s
      cases st <;>
        simp [runSteps, List.any_append, dispatchFn_noOut, dqComplete_noOut, ih]

theorem runProcess_noOut (cfg : PCfg) (ct : Value → Bool) (s : InstState)
    (p : ProcScript) : (((runProcess cfg ct s p).2).any isNextOut) = false := by
  rcases p with ⟨steps, res⟩
  rcases res with arg | v
  · rcases arg with v | v
    · cases v <;> by_cases hdr : cfg.dispatchReturn <;>
        simp [runProcess, hdr, List.any_append, runSteps_noOut, dqComplete_noOut,
          dispatchFn_noOut]
    · by_cases hdr : cfg.dispatchReturn <;>
        simp [runProcess, hdr, List.any_append, runSteps_noOut, dqComplete_noOut,
          dispatchFn_noOut]
  · simp [runProcess, List.any_append, runSteps_noOut, dispatchFn_noOut]

/-! ## Claim theorems -/

/-- Claim C1 (code bug exhibited): in the run where a logic with type
pattern `'X'` and cancelType `'CANCEL'` has an asynchronous validate hook,
the actions `{type:'X'}` then `{type:'CANCEL'}` arrive, and afterwards the
deferred validate calls `reject(undefined)` exactly once, the monitor
trace is top, begin, top, bottom, cancelled, end, filtered; folding it
with the scan accumulator of createLogicMiddleware yields a pending count
of minus one, although the single lifecycle instance is terminal, so the
pending count is negative and never settles back to zero. -/
theorem c1_pending_counter_goes_negative :
    c1Trace =
      [Ev.monitor Op.top, Ev.monitor Op.begin, Ev.monitor Op.top,
       Ev.bottomNext aCancel, Ev.monitor Op.bottom, Ev.monitor Op.cancelled,
       Ev.monitor Op.opEnd, Ev.monitor Op.filtered] ∧
    pendingAfter (monitorOps c1Trace) = -1 ∧
    c1LateReject.1.interceptComplete = true ∧
    c1LateReject.1.dqStopped = true ∧
    c1LateReject.1.obsStopped = true := by
  decide

/-- Claim C2: for a unit with latest true, a further action matching the
unit type also matches the cancel set built by logicWrapper, hence fires
cancel$ at the first instance; takeUntil(cancel$) stops the first
instance dispatch queue, and the stopped queue emits nothing for any
dispatch attempts made afterwards — so the first instance dispatch queue
never emits after the second instance begins (the cancellation happens in
the same synchronous notification cascade as the second begin). -/
theorem c2_latest_first_queue_silent_after_second
    (p : JPat) (cancels : JPat) (ty2 : String)
    (hm : matchesType p ty2 = true)
    (cfg : PCfg) (consumerThrows : Value → Bool) (s : InstState)
    (late : List DispatchArg) :
    matchesType (mkCancelTypes p true cancels) ty2 = true ∧
    ((onCancel s).1).dqStopped = true ∧
    (dispatchSeq cfg consumerThrows (onCancel s).1 late).2 = [] := by
  refine ⟨?_, onCancel_dqStopped s, ?_⟩
  · have ht := truthyPat_of_matchesType p ty2 hm
    simp [mkCancelTypes, ht, matchesType_jsConcat, matchesType, hm]
  · rw [dispatchSeq_stopped cfg consumerThrows late (onCancel s).1
      (onCancel_dqStopped s)]

/-- Witness for C2 at the unit type pattern `'X'`, second action type
`'X'`, a fresh first instance and one late dispatch attempt. -/
theorem c2_latest_witness :
    matchesType (mkCancelTypes (JPat.str "X") true JPat.jnull) "X" = true ∧
    ((onCancel initInst).1).dqStopped = true ∧
    (dispatchSeq ⟨false, false, none, none⟩ (fun _ => false) (onCancel initInst).1
      [DispatchArg.value (Value.obj (some "Q") 9)]).2 = [] :=
  c2_latest_first_queue_silent_after_second (JPat.str "X") JPat.jnull "X"
    (by decide) ⟨false, false, none, none⟩ (fun _ => false) initInst
    [DispatchArg.value (Value.obj (some "Q") 9)]

/-- Claim C3: a synchronous exception thrown by the process hook is caught
by handleNextOrDispatch and converted into an error notification on the
dispatch queue, which flows through the error-mapping path
(errorDrainEvents, i.e. failType or the generic error action) and ends the
instance; the run of the lifecycle engine returns normally with the
instance terminal, so the exception never escapes and the pipeline can
handle subsequent actions. -/
theorem c3_process_throw_converted_to_error_dispatch
    (cfg : PCfg) (consumerThrows : Value → Bool) (ty : String) (k : Nat)
    (e : Value) :
    beginInstance cfg consumerThrows (.obj (some ty) k)
      (.sync (.allowC (.obj (some ty) k) .auto)) ⟨[], .throwsE e⟩ =
      (⟨true, true, true, false⟩,
       [Ev.monitor Op.begin, Ev.monitor Op.next, Ev.nextOut (.obj (some ty) k)] ++
         errorDrainEvents cfg.failType e) := by
  have hsd : shouldDispatch (Value.obj (some ty) k) (Value.obj (some ty) k)
      .auto = false := by
    simp [shouldDispatch, truthy, vtype]
  by_cases hm : cfg.dispatchMultiple <;>
    simp [beginInstance, runInterceptCall, handleNextOrDispatch, hsd, truthy,
      postIfDefinedOrComplete, runProcess, runSteps, dispatchFn, enqueueArg,
      dqEmit, dqComplete, dqStop, initInst, hm, isError]

/-- Counterexample for C4: a plain object without a type field drained as
an error value with no failType configured is dispatched as-is by
mapErrorToActionAndDispatch, while the claim requires it to be wrapped
into the generic UNHANDLED_LOGIC_ERROR action. -/
theorem c4_plain_object_without_type_counterexample :
    mapErrorStep none (Value.obj none 3) = some (Value.obj none 3) ∧
    claimErrorMap none (Value.obj none 3) =
      some (unhandledWrap (Value.obj none 3)) ∧
    mapErrorStep none (Value.obj none 3) ≠ claimErrorMap none (Value.obj none 3) := by
  refine ⟨rfl, rfl, ?_⟩
  decide

/-- Claim C4 as amended: the code error mapping agrees everywhere with the
category-wise description amendedErrorMap — failType mapping when
configured; otherwise an Error instance with truthy type passes as-is, an
Error without one is wrapped, any truthy object or function value passes
as-is, and all remaining values are wrapped into UNHANDLED_LOGIC_ERROR. -/
theorem c4_error_mapping_amended (failType : Option TypeMap) (v : Value) :
    mapErrorStep failType v = amendedErrorMap failType v := by
  rcases failType with _ | t
  · cases v with
    | undef => rfl
    | prim tv i =>
        simp [mapErrorStep, amendedErrorMap, isInterceptAction, isError,
          isObjectOrFunction, truthy, Bool.and_false]
    | errObj ty i =>
        rcases ty with _ | t
        · rfl
        · by_cases ht : t = "" <;>
            simp [mapErrorStep, amendedErrorMap, isInterceptAction, isError,
              hasTruthyType, vtype, ht]
    | obj ty i => rfl
    | fnVal i => rfl
    | made t pl e => rfl
    | interceptWrap inner =>
        by_cases hi : truthy inner <;>
          simp [mapErrorStep, amendedErrorMap, isInterceptAction, hi, isError,
            isObjectOrFunction, truthy]
  · rfl

/-- Counterexample for C5: in the run where the validate hook calls
allow(undefined) with default options and the process hook returns an
action value under dispatchReturn, the filtered monitor event is emitted
and yet the process hook runs and its value is dispatched to the consumer
— contradicting the claim that no further processing (in particular no
process-hook dispatch work) takes place. -/
theorem c5_allow_undefined_still_processes_counterexample :
    Ev.monitor Op.filtered ∈ c5Run ∧ Ev.storeDisp c5Dispatched ∈ c5Run ∧
    c5Run = [Ev.monitor Op.begin, Ev.monitor Op.filtered,
      Ev.monitor Op.dispatch, Ev.storeDisp c5Dispatched,
      Ev.monitor Op.opEnd] := by
  decide

/-- Claim C5 as amended: allow(undefined) with default options emits the
filtered monitor event and forwards nothing downstream (the instance
observable completes empty, and no nextOut event occurs in the whole
run), but since allow authorizes processing, the process hook still runs
on the open dispatch queue and may dispatch actions; only reject prevents
the process hook. -/
theorem c5_allow_undefined_filters_amended
    (cfg : PCfg) (consumerThrows : Value → Bool) (a : Value) (p : ProcScript) :
    beginInstance cfg consumerThrows a (.sync (.allowC .undef .auto)) p =
      ((runProcess cfg consumerThrows ⟨true, false, true, true⟩ p).1,
       Ev.monitor Op.begin :: Ev.monitor Op.filtered ::
         (runProcess cfg consumerThrows ⟨true, false, true, true⟩ p).2) ∧
    ((beginInstance cfg consumerThrows a (.sync (.allowC .undef .auto)) p).2.any
        isNextOut) = false := by
  have h1 : beginInstance cfg consumerThrows a (.sync (.allowC .undef .auto)) p =
      ((runProcess cfg consumerThrows ⟨true, false, true, true⟩ p).1,
       Ev.monitor Op.begin :: Ev.monitor Op.filtered ::
         (runProcess cfg consumerThrows ⟨true, false, true, true⟩ p).2) := rfl
  refine ⟨h1, ?_⟩
  rw [h1]
  simp [isNextOut, runProcess_noOut]

/-- Claim C6: matchesType is exactly the pattern semantics of the claim —
true precisely when the pattern is the literal wildcard, or a nonempty
string equal to the action type, or a regular-expression-like value whose
test accepts the type, or an array one of whose members (its head or its
remaining members) matches; absent or empty patterns never match, and the
function is a pure Lean function. -/
theorem c6_matcher_characterization (p : JPat) (ty : String) :
    matchesType p ty = true ↔
      (p = JPat.str "*" ∨
       (∃ s, p = JPat.str s ∧ s ≠ "" ∧ s = ty) ∨
       (∃ f, p = JPat.regex f ∧ f ty = true) ∨
       (∃ h t, p = JPat.arrCons h t ∧
         (matchesType h ty = true ∨ matchesType t ty = true))) := by
  cases p with
  | jnull => simp [matchesType]
  | str s =>
      by_cases hs : s = ""
      · subst hs; simp [matchesType]
      · simp [matchesType, hs, Bool.or_eq_true]
        tauto
  | regex f => simp [matchesType]
  | arrNil => simp [matchesType]
  | arrCons h t =>
      simp only [matchesType, Bool.or_eq_true]
      constructor
      · intro hh
        exact Or.inr (Or.inr (Or.inr ⟨h, t, rfl, hh⟩))
      · rintro (hc | ⟨s, hc, -, -⟩ | ⟨f, hc, -⟩ | ⟨h1, t1, hc, hh⟩)
        · simp at hc
        · simp at hc
        · simp at hc
        · injection hc with e1 e2
          subst e1; subst e2
          exact hh

/-- Witness for C6: the wildcard pattern matches a type unseen at
registration time. -/
theorem c6_matcher_witness : matchesType (JPat.str "*") "SOME_UNSEEN_TYPE" = true :=
  (c6_matcher_characterization (JPat.str "*") "SOME_UNSEEN_TYPE").mpr (Or.inl rfl)

/-- Counterexample for C7: in the run where the consumer throws on every
dispatched action, a queue value is forwarded to the consumer (storeDisp
occurs and the consumer throws on it by construction) yet the trace
contains no nextError monitor event — the queue path reports the caught
exception as end, contradicting the claim that every consumer exception is
reported as nextError. -/
theorem c7_queue_consumer_throw_no_nextError_counterexample :
    Ev.storeDisp c7Dispatched ∈ c7Run ∧ c7Throwing c7Dispatched = true ∧
    Ev.monitor Op.nextError ∉ c7Run := by
  decide

/-- Claim C7 as amended: an exception thrown by the consumer at the
pipeline bottom is caught and reported as a nextError monitor event with
bottom still emitted afterwards, while an exception thrown by the
consumer during a dispatch-queue storeDispatch is caught by the stream
machinery and terminates the instance queue with an end monitor event and
no nextError; in neither case does the exception propagate out of the
core. -/
theorem c7_consumer_throw_amended
    (nextThrows : Value → Bool) (a : Value) (h1 : nextThrows a = true)
    (cfg : PCfg) (consumerThrows : Value → Bool) (s : InstState) (v act : Value)
    (h2 : s.dqStopped = false)
    (h3 : mapToActionStep cfg.successType v = some act)
    (h4 : consumerThrows act = true) :
    bottomStep nextThrows a =
      [Ev.bottomNext a, Ev.monitor Op.nextError, Ev.monitor Op.bottom] ∧
    dqEmit cfg consumerThrows s (.nextV v) =
      (dqStop s, [Ev.monitor Op.dispatch, Ev.storeDisp act,
        Ev.monitor Op.opEnd]) := by
  constructor
  · simp [bottomStep, h1]
  · simp [dqEmit, h2, drainNext, h3, h4]

/-- Witness for C7 discharging the hypotheses at a throwing consumer and a
concrete queue value. -/
theorem c7_consumer_throw_witness :
    bottomStep (fun _ => true) (Value.obj (some "A") 0) =
      [Ev.bottomNext (Value.obj (some "A") 0), Ev.monitor Op.nextError,
       Ev.monitor Op.bottom] ∧
    dqEmit ⟨true, false, none, none⟩ (fun _ => true) initInst
      (.nextV (Value.obj (some "B") 1)) =
      (dqStop initInst, [Ev.monitor Op.dispatch,
        Ev.storeDisp (Value.obj (some "B") 1), Ev.monitor Op.opEnd]) :=
  c7_consumer_throw_amended (fun _ => true) (Value.obj (some "A") 0) rfl
    ⟨true, false, none, none⟩ (fun _ => true) initInst (Value.obj (some "B") 1)
    (Value.obj (some "B") 1) rfl (by decide) rfl

/-- Claim C8: an instance whose intercept hook calls reject(undefined)
emits exactly begin, filtered, end — the process script never runs (the
result does not depend on it), nothing is forwarded downstream and no
action is dispatched to the consumer. -/
theorem c8_reject_undefined_filters_without_processing
    (cfg : PCfg) (consumerThrows : Value → Bool) (a : Value) (p : ProcScript) :
    beginInstance cfg consumerThrows a (.sync (.rejectC .undef .auto)) p =
      (⟨true, true, true, false⟩,
       [Ev.monitor Op.begin, Ev.monitor Op.filtered, Ev.monitor Op.opEnd]) := rfl

/-- Claim C9: the middleware can only ever be attached to one store — the
first application saves the store, re-application with the same store is
accepted, and application with a different store throws the synchronous
multiple-stores error. -/
theorem c9_single_store_attachment (s1 s2 : Nat) :
    mwApplyStore none s1 = Except.ok (some s1) ∧
    mwApplyStore (some s1) s1 = Except.ok (some s1) ∧
    (s1 ≠ s2 → mwApplyStore (some s1) s2 = Except.error multiStoreMsg) := by
  refine ⟨rfl, by simp [mwApplyStore], fun h => by simp [mwApplyStore, h]⟩

/-- Witness for C9 at two distinct concrete stores. -/
theorem c9_single_store_witness :
    mwApplyStore (some 0) 1 = Except.error multiStoreMsg :=
  (c9_single_store_attachment 0 1).2.2 (by decide)

/-- Claim C10: dispatch(undefined) with default options enqueues nothing —
no store dispatch ever happens from the call — and when dispatchMultiple
is not set (allowMore already being false by default) it completes a live
dispatch queue, emitting exactly the end monitor event. -/
theorem c10_dispatch_undefined_completes_without_dispatch
    (cfg : PCfg) (consumerThrows : Value → Bool) (s : InstState) :
    dispatchFn cfg consumerThrows s (.value .undef) false =
      (if cfg.dispatchMultiple || s.dqStopped then (s, [])
       else (dqStop s, [Ev.monitor Op.opEnd])) := by
  by_cases h1 : cfg.dispatchMultiple <;> by_cases h2 : s.dqStopped <;>
    simp [dispatchFn, enqueueArg, dqComplete, h1, h2]

end ReduxLogic
